import Mathlib

/-
  Shallow embedding of the ShiroTweet acquisition-and-persistence pipeline
  (Rust sources: src/tweet_fetcher.rs, src/tweet_parser.rs, src/tweet_db.rs,
  src/fetcher.rs, src/utils.rs, src/twitter_def.rs), together with theorems
  settling the claims about its specification.
-/

namespace ShiroTweet

/-! ## Failure taxonomy (src/utils.rs, src/tweet_db.rs) -/

/-- The error enum of `src/utils.rs` (`pub enum Error`). -/
inductive Error where
  | CustomError (msg : String)
  | LoginFailed (msg : String)
  | TweetNotExists
  | TwitterAccountSuspended
  | TwitterAccountNotExisted
  | TweetAdultContent
  | TweetRestricted
  | TweetIllegalBan
  | NotATweet
  | TweetParseFailed (msg : Option String)
  | TweetUnknownError (msg : String)
  | JsonFailed (msg : Option String)
  | TweetJsonSchemaInvalid
  | Todo (msg : String)
  | Unimplemented (msg : String)
  | RateLimitExceeded
  | DBError
  deriving DecidableEq, Repr

/-- `pub enum TweetFailReason` of `src/tweet_db.rs`. -/
inductive TweetFailReason where
  | Restricted
  | Deleted
  | AccountSuspended
  | AccountNotExisted
  deriving DecidableEq, Repr

/-- `impl ToString for TweetFailReason` (src/tweet_db.rs lines 44-54). -/
def TweetFailReason.to_string : TweetFailReason → String
  | .Restricted => "restricted"
  | .Deleted => "deleted"
  | .AccountSuspended => "account suspended"
  | .AccountNotExisted => "account not existed"

/-- `impl TryFrom<String> for TweetFailReason` (src/tweet_db.rs lines 67-80). -/
def TweetFailReason.try_from (value : String) : Except Unit TweetFailReason :=
  if value = "restricted" then .ok .Restricted
  else if value = "deleted" then .ok .Deleted
  else if value = "account suspended" then .ok .AccountSuspended
  else if value = "account not existed" then .ok .AccountNotExisted
  else .error ()

/-- `Error::try_make_fail_reason` (src/utils.rs lines 71-80). -/
def Error.try_make_fail_reason : Error → Option TweetFailReason
  | .TweetRestricted => some .Restricted
  | .TweetNotExists => some .Deleted
  | .TwitterAccountSuspended => some .AccountSuspended
  | .TwitterAccountNotExisted => some .AccountNotExisted
  | .TweetIllegalBan => some .Deleted
  | _ => none

/-! ## Fetch-loop rate-limit backoff (src/tweet_fetcher.rs, fetch_url_lists_to_sqlite)

The per-URL retry loop of `fetch_url_lists_to_sqlite` (lines 366-395) is
driven by the sequence of responses `fetcher.get_tweet` produces for the
same URL.  We embed it as a recursion over that response script.  A script
exhausted on rate-limits means the loop is still retrying the same id
(the Rust loop never exits on `RateLimitExceeded`). -/

/-- One response of the fetch capability for one attempt. -/
inductive FetchResp where
  | rateLimited
  | ok (json : String)
  | err (e : Error)
  deriving DecidableEq, Repr

/-- The seconds slept when a rate-limit is handled with the current
`retries_counter` value `c` (src/tweet_fetcher.rs lines 372-385):
`c = 0` sleeps 60, otherwise `600 + 120*(c-1)`. -/
def rlSleepSecs (c : Nat) : Nat :=
  if c = 0 then 60 else 600 + 120 * (c - 1)

/-- Outcome of the per-URL loop once a non-rate-limited response arrives. -/
inductive FetchOutcome where
  | got (json : String)
  | failed (e : Error)
  deriving DecidableEq, Repr

/-- The inner `loop` of `fetch_url_lists_to_sqlite` for one URL, run against
a finite prefix of the response script: returns the sleeps performed on
rate-limits (in order) and the outcome, `none` meaning the loop is still
retrying the same id (every consumed response was `RateLimited`). -/
def fetchLoop : List FetchResp → Nat → List Nat × Option FetchOutcome
  | [], _ => ([], none)
  | .rateLimited :: rest, c =>
      let r := fetchLoop rest (c + 1)
      (rlSleepSecs c :: r.1, r.2)
  | .ok json :: _, _ => ([], some (.got json))
  | .err e :: _, _ => ([], some (.failed e))

/-- In `fetch_url_lists_to_sqlite` a URL is pushed into `failed` only when
the loop broke with an error result (lines 396-409); while the outcome is
still pending (all responses so far rate-limited) nothing is recorded. -/
def urlFailedByScript (script : List FetchResp) : Bool :=
  match (fetchLoop script 0).2 with
  | some (.failed _) => true
  | _ => false

/-! ## Persistence store error handling (src/tweet_db.rs) -/

/-- SQLite primary error codes distinguished by the embedding
(`rusqlite::ErrorCode`); only the ones the claims exercise are listed. -/
inductive SqlErrorCode where
  | constraintViolation
  | databaseBusy
  | diskFull
  | systemIoFailure
  deriving DecidableEq, Repr

/-- A `rusqlite::Error`: either an SQLite-level failure carrying an error
code, or any other library error (pool/connection/type errors). -/
inductive RusqliteError where
  | sqliteFailure (code : SqlErrorCode)
  | otherError
  deriving DecidableEq, Repr

/-- `TweetDB::do_rusqlite_error` (src/tweet_db.rs lines 159-179), with
logging elided: returns `true` iff the function panics (aborts the run).
When an allowed code is supplied, an `SqliteFailure` with a *different*
code is only logged — the `else` branch at lines 168-170 has no `panic!`. -/
def do_rusqlite_error (allow_sql_errcode : Option SqlErrorCode)
    (err : RusqliteError) : Bool :=
  match allow_sql_errcode with
  | some allow =>
      match err with
      | .sqliteFailure c =>
          if c = allow then
            false
          else
            false
      | .otherError => true
  | none => true

/-- `Tweet` row (src/tweet_db.rs). -/
structure Tweet where
  id : Nat
  author : String
  content : String
  create_time : Nat
  deriving DecidableEq, Repr

/-- `Media` row (src/tweet_db.rs). -/
structure Media where
  id : String
  tweet_id : Nat
  url : String
  width : Nat
  height : Nat
  no : Nat
  _type : String
  deriving DecidableEq, Repr

/-- `ThreadInfo` row (src/tweet_db.rs). -/
structure ThreadInfo where
  tweet_id : Nat
  thread_id : Nat
  reply_to : Nat
  deriving DecidableEq, Repr

/-- The `tweet` table: unique on `id` (PRIMARY KEY). The SQL `INSERT`'s
outcome in a healthy database: a duplicate key yields an SQLite
constraint-violation failure and leaves the table unchanged. -/
def sqlInsertTweet (tbl : List Tweet) (t : Tweet) :
    Except RusqliteError (List Tweet) :=
  if tbl.any (fun r => r.id = t.id) then
    .error (.sqliteFailure .constraintViolation)
  else
    .ok (tbl ++ [t])

/-- The `media` table: unique on `id` and on `url`. -/
def sqlInsertMedia (tbl : List Media) (m : Media) :
    Except RusqliteError (List Media) :=
  if tbl.any (fun r => r.id = m.id || r.url = m.url) then
    .error (.sqliteFailure .constraintViolation)
  else
    .ok (tbl ++ [m])

/-- The `thread` table: unique on `tweet_id` (PRIMARY KEY). -/
def sqlInsertThread (tbl : List ThreadInfo) (ti : ThreadInfo) :
    Except RusqliteError (List ThreadInfo) :=
  if tbl.any (fun r => r.tweet_id = ti.tweet_id) then
    .error (.sqliteFailure .constraintViolation)
  else
    .ok (tbl ++ [ti])

/-- `TweetDB::insert_tweet` (src/tweet_db.rs lines 181-195).  `dbFault`
injects an environmental storage failure of the underlying `execute`
(e.g. disk I/O); `none` means the engine behaves per `sqlInsertTweet`.
Returns the table after the call and whether the call panicked. -/
def insert_tweet (dbFault : Option RusqliteError) (tbl : List Tweet)
    (t : Tweet) : List Tweet × Bool :=
  let res : Except RusqliteError (List Tweet) := match dbFault with
    | some e => .error e
    | none => sqlInsertTweet tbl t
  match res with
  | .ok tbl' => (tbl', false)
  | .error e => (tbl, do_rusqlite_error (some .constraintViolation) e)

/-- `TweetDB::insert_media` (src/tweet_db.rs lines 235-257). -/
def insert_media (dbFault : Option RusqliteError) (tbl : List Media)
    (m : Media) : List Media × Bool :=
  let res : Except RusqliteError (List Media) := match dbFault with
    | some e => .error e
    | none => sqlInsertMedia tbl m
  match res with
  | .ok tbl' => (tbl', false)
  | .error e => (tbl, do_rusqlite_error (some .constraintViolation) e)

/-- `TweetDB::insert_thread` (src/tweet_db.rs lines 281-299). -/
def insert_thread (dbFault : Option RusqliteError) (tbl : List ThreadInfo)
    (ti : ThreadInfo) : List ThreadInfo × Bool :=
  let res : Except RusqliteError (List ThreadInfo) := match dbFault with
    | some e => .error e
    | none => sqlInsertThread tbl ti
  match res with
  | .ok tbl' => (tbl', false)
  | .error e => (tbl, do_rusqlite_error (some .constraintViolation) e)

/-! ## Raw cache (src/tweet_fetcher.rs, TweetDownloadDB)

Table `tweet(id PRIMARY KEY UNIQUE, url UNIQUE, json, fetch_time)`;
a row is `(id, url, json)` (fetch_time elided: no operation reads it). -/

/-- One row of the raw-cache `tweet` table. -/
structure RawRow where
  id : Nat
  url : String
  json : String
  deriving DecidableEq, Repr

/-- Errors surfaced by the raw-cache operations: an SQLite unique-key
violation on insert, or `QueryReturnedNoRows` on a lookup miss. -/
inductive RawDbError where
  | duplicateKey
  | notFound
  deriving DecidableEq, Repr

/-- `TweetDownloadDB::is_exist` (src/tweet_fetcher.rs lines 304-314). -/
def RawDb.is_exist (tbl : List RawRow) (id : Nat) : Bool :=
  tbl.any (fun r => r.id = id)

/-- `TweetDownloadDB::insert` (src/tweet_fetcher.rs lines 316-322): the
`INSERT` fails with a unique-constraint violation if the id or the url is
already present, leaving the table unchanged. -/
def RawDb.insert (tbl : List RawRow) (id : Nat) (url json : String) :
    Except RawDbError (List RawRow) :=
  if tbl.any (fun r => r.id = id || r.url = url) then
    .error .duplicateKey
  else
    .ok (tbl ++ [⟨id, url, json⟩])

/-- `TweetDownloadDB::get_json` (src/tweet_fetcher.rs lines 324-331). -/
def RawDb.get_json (tbl : List RawRow) (id : Nat) : Except RawDbError String :=
  match tbl.find? (fun r => r.id = id) with
  | some r => .ok r.json
  | none => .error .notFound

/-- `TweetDownloadDB::remove` (src/tweet_fetcher.rs lines 333-339). -/
def RawDb.remove (tbl : List RawRow) (id : Nat) : List RawRow :=
  tbl.filter (fun r => ¬ r.id = id)

/-! ## Tombstone phrases (src/twitter_def.rs) -/

def TEXT_TOMBSTONE_ACCOUNT_SUSPENDED : String := "这条推文来自一个已冻结的账号"

def TEXT_TOMBSTONE_ACCOUNT_NOT_EXISTED : String := "这条推文来自一个已不存在的账号。"

def TEXT_TOMBSTONE_AUDLT_CONTENT : String :=
  "受年龄限制的成人内容。这些内容可能不适合 18 岁以下的用户。"

def TEXT_TOMBSTONE_USER_RESTRICTED : String := "该账号所有者限制了可以查看其推文的用户。"

def TWEET_ERROR_MESSAGE_DELETED : String := "_Missing: No status found with that ID."

/-- Modelled from the spec: `twitter_def::TEXT_TOMBSTONE_TWEET_ILLEGAL` is
referenced by `src/tweet_parser.rs` (the illegal-content tombstone phrase)
but its definition is not among the sources under src/; the spec lists it
as the fixed phrase mapped to the illegal-content reason.  The concrete
wording is a placeholder; no claim depends on it. -/
def TEXT_TOMBSTONE_TWEET_ILLEGAL : String := "illegal-content tombstone phrase"

/-- Modelled from the spec: `twitter_def::TEXT_TOMBSTONE_TWEET_NOT_AVALIABLE`
is referenced by `src/tweet_parser.rs` (the generic not-available tombstone
phrase) but its definition is not among the sources under src/.  The
concrete wording is a placeholder; no claim depends on it. -/
def TEXT_TOMBSTONE_TWEET_NOT_AVALIABLE : String := "generic not-available tombstone phrase"

/-! ## Parsed tweet items (src/tweet_parser.rs)

The deserialized structures keep exactly the fields some code path of the
pipeline reads; fields of the Rust structs that nothing ever reads
(`display_url`, `indices`, the count/flag fields of `TweetLegacy`,
`sizes`, `features`, `name`, …) are elided. -/

/-- `TweetSelfThread`. -/
structure TweetSelfThread where
  id_str : String
  deriving DecidableEq, Repr

/-- `TweetVideoInfoVariant`; a missing `bitrate` deserializes to
`default_bitrate()` = 0 (src/tweet_parser.rs lines 23-33). -/
structure TweetVideoInfoVariant where
  bitrate : Nat
  url : String
  deriving DecidableEq, Repr

/-- `TweetVideoInfo`. -/
structure TweetVideoInfo where
  variants : List TweetVideoInfoVariant
  deriving DecidableEq, Repr

/-- `TweetMediaOriginalInfo`. -/
structure TweetMediaOriginalInfo where
  height : Nat
  width : Nat
  deriving DecidableEq, Repr

/-- `TweetMedia` (the deserialized media item of `entities`). -/
structure TweetMedia where
  id_str : String
  media_url_https : String
  _type : String
  original_info : TweetMediaOriginalInfo
  video_info : Option TweetVideoInfo
  deriving DecidableEq, Repr

/-- `TweetEntities`. -/
structure TweetEntities where
  media : Option (List TweetMedia)
  deriving DecidableEq, Repr

/-- `TweetLegacy`. -/
structure TweetLegacy where
  created_at : String
  full_text : String
  self_thread : Option TweetSelfThread
  in_reply_to_status_id_str : Option String
  entities : TweetEntities
  extended_entities : Option TweetEntities
  deriving DecidableEq, Repr

/-- `TweetUserLegacy`. -/
structure TweetUserLegacy where
  screen_name : String
  deriving DecidableEq, Repr

/-- `TweetUser`. -/
structure TweetUser where
  legacy : TweetUserLegacy
  deriving DecidableEq, Repr

/-- `TweetCoreUserResults`. -/
structure TweetCoreUserResults where
  result : TweetUser
  deriving DecidableEq, Repr

/-- `TweetCore`. -/
structure TweetCore where
  user_results : TweetCoreUserResults
  deriving DecidableEq, Repr

/-- `TweetItem` (src/tweet_parser.rs lines 137-144). -/
structure TweetItem where
  type_name : String
  rest_id : String
  core : TweetCore
  legacy : TweetLegacy
  deriving DecidableEq, Repr

/-- Rust `str::parse::<u64>` on a digit string, structurally recursive so
that it reduces definitionally: accumulates decimal digits, failing on a
non-digit (leading sign elided; overflow cannot occur over `Nat`). -/
def parseNatChars : List Char → Nat → Option Nat
  | [], acc => some acc
  | c :: rest, acc =>
      if '0' ≤ c ∧ c ≤ '9' then
        parseNatChars rest (acc * 10 + (c.toNat - '0'.toNat))
      else none

/-- `str::parse::<u64>`: fails on the empty string. -/
def parseNat? (s : String) : Option Nat :=
  match s.toList with
  | [] => none
  | cs => parseNatChars cs 0

/-- `TweetItem::as_tweet` (src/tweet_parser.rs lines 170-181).
`parseDate` stands for the external chrono parse of the fixed format
`"%a %b %d %H:%M:%S %z %Y"` (already cast to u64); a parse failure maps to
0 via `map_or`.  The result is `none` when `rest_id.parse().unwrap()`
would panic. -/
def TweetItem.as_tweet (parseDate : String → Option Nat) (it : TweetItem) :
    Option Tweet :=
  match parseNat? it.rest_id with
  | none => none
  | some i =>
      some { id := i
             author := it.core.user_results.result.legacy.screen_name
             content := it.legacy.full_text
             create_time := (parseDate it.legacy.created_at).getD 0 }

/-- `TweetItem::as_thread` (src/tweet_parser.rs lines 183-206).  The outer
`Option` models the `.parse().unwrap()` panics; the inner `Option` is the
Rust return value: `none` when the item lacks a self-thread id or an
in-reply-to id. -/
def TweetItem.as_thread (it : TweetItem) : Option (Option ThreadInfo) :=
  match it.legacy.self_thread, it.legacy.in_reply_to_status_id_str with
  | some st, some rep =>
      match parseNat? it.rest_id, parseNat? st.id_str, parseNat? rep with
      | some a, some b, some c => some (some ⟨a, b, c⟩)
      | _, _, _ => none
  | _, _ => some none

/-- One step of `Iterator::max_by_key` on the bitrate key: keep the
accumulator only when its bitrate is strictly larger (so on ties the
*later* variant wins, as in Rust). -/
def pickMaxBitrate (acc : Option TweetVideoInfoVariant)
    (v : TweetVideoInfoVariant) : Option TweetVideoInfoVariant :=
  match acc with
  | none => some v
  | some a => if a.bitrate > v.bitrate then some a else some v

/-- Rust `Iterator::max_by_key` on the bitrate key: `none` on an empty
list, otherwise the *last* variant among those of maximal bitrate. -/
def maxByBitrate (l : List TweetVideoInfoVariant) :
    Option TweetVideoInfoVariant :=
  l.foldl pickMaxBitrate none

/-- The URL selected for one media item (src/tweet_parser.rs lines
220-231): for `animated_gif`/`video` the max-bitrate variant's url
(`none` models the `video_info.unwrap()` / `max_by_key(..).unwrap()`
panics), otherwise `media_url_https`. -/
def mediaUrl (m : TweetMedia) : Option String :=
  if m._type = "animated_gif" || m._type = "video" then
    match m.video_info with
    | none => none
    | some vi => (maxByBitrate vi.variants).map (fun v => v.url)
  else
    some m.media_url_https

/-- The `enumerate().map(..)` body of `get_medias` from index `i` on:
builds one `Media` per source item with `no = index + 1`.  `none` models a
panic (bad `rest_id` or missing video info). -/
def mediasFrom (restId : String) : Nat → List TweetMedia → Option (List Media)
  | _, [] => some []
  | i, m :: rest =>
      match mediaUrl m, parseNat? restId, mediasFrom restId (i + 1) rest with
      | some url, some tid, some l =>
          some ({ id := m.id_str
                  tweet_id := tid
                  url := url
                  width := m.original_info.width
                  height := m.original_info.height
                  no := i + 1
                  _type := m._type } :: l)
      | _, _, _ => none

/-- The `if let Some(medias) = &self.legacy.extended_entities` choice at
the head of `get_medias`: prefer `extended_entities` over `entities`. -/
def chosenEntities (it : TweetItem) : TweetEntities :=
  match it.legacy.extended_entities with
  | some e => e
  | none => it.legacy.entities

/-- `TweetItem::get_medias` (src/tweet_parser.rs lines 208-249): prefers
`extended_entities` over `entities`; a missing media list yields `[]`.
`none` models a panic inside the Rust body. -/
def TweetItem.get_medias (it : TweetItem) : Option (List Media) :=
  match (chosenEntities it).media with
  | some ms => mediasFrom it.rest_id 0 ms
  | none => some []

/-! ## The parse-result map and thread resolution (src/tweet_parser.rs) -/

/-- The `HashMap<u64, TweetItem>` parse result, as an association list;
`HashMap` key uniqueness is the `nodupKeys` invariant. -/
abbrev TweetMap := List (Nat × TweetItem)

/-- `HashMap::get` / indexing. -/
def mapLookup (m : TweetMap) (k : Nat) : Option TweetItem :=
  (m.find? (fun p => p.1 = k)).map (fun p => p.2)

/-- `HashMap::contains_key`. -/
def mapContains (m : TweetMap) (k : Nat) : Bool :=
  m.any (fun p => p.1 = k)

/-- `HashMap::insert` (replaces an existing binding for the key). -/
def mapInsert (m : TweetMap) (k : Nat) (v : TweetItem) : TweetMap :=
  m.filter (fun p => ¬ p.1 = k) ++ [(k, v)]

/-- Key uniqueness of the `HashMap`. -/
def nodupKeys (m : TweetMap) : Prop :=
  (m.map Prod.fst).Nodup

instance (m : TweetMap) : Decidable (nodupKeys m) :=
  inferInstanceAs (Decidable (m.map Prod.fst).Nodup)

/-- Whether an item carries self-thread id `tid` (the filter predicate of
`get_thread`, src/tweet_parser.rs lines 437-444). -/
def hasThreadId (tid : String) (it : TweetItem) : Bool :=
  match it.legacy.self_thread with
  | some s => s.id_str = tid
  | none => false

/-- The ids of map entries sharing self-thread id `tid` (the
`filter`/`map` chain of `get_thread`, src/tweet_parser.rs lines 437-444). -/
def threadMembers (tweets : TweetMap) (tid : String) : List Nat :=
  (tweets.filter (fun p => hasThreadId tid p.2)).map (fun p => p.1)

/-- `get_thread` (src/tweet_parser.rs lines 426-450). -/
def get_thread (id : Nat) (tweets : TweetMap) : Option (List Nat) :=
  match mapLookup tweets id with
  | none => none
  | some item =>
      match item.legacy.self_thread with
      | none => none
      | some st =>
          let with_same_id := threadMembers tweets st.id_str
          if with_same_id.length = 1 then none else some with_same_id

/-! ## JSON values (serde_json::Value) -/

/-- serde_json `Value` (numbers as integers: the payload fields the
pipeline reads are integral). -/
inductive Json where
  | null
  | bool (b : Bool)
  | num (n : Int)
  | str (s : String)
  | arr (elems : List Json)
  | obj (fields : List (String × Json))

/-- First binding of a key in a JSON object's field list. -/
def objGet : List (String × Json) → String → Option Json
  | [], _ => none
  | (k, v) :: rest, key => if k = key then some v else objGet rest key

/-- `Value::as_object`. -/
def Json.getObj? : Json → Option (List (String × Json))
  | .obj f => some f
  | _ => none

/-- `Value::as_array`. -/
def Json.getArr? : Json → Option (List Json)
  | .arr l => some l
  | _ => none

/-- `Value::as_str`. -/
def Json.getStr? : Json → Option String
  | .str s => some s
  | _ => none

/-- `Value::get(key)`: `Some` only for an object containing the key. -/
def Json.get? (j : Json) (k : String) : Option Json :=
  match j with
  | .obj f => objGet f k
  | _ => none

/-- serde_json `Index<&str>` on `Value`: `value[k]`, yielding `Null` when
the value is not an object or lacks the key. -/
def Json.idx (j : Json) (k : String) : Json :=
  (j.get? k).getD .null

/-- `value == "s"` (`PartialEq<&str>` for `Value`). -/
def Json.eqStr (j : Json) (s : String) : Bool :=
  match j with
  | .str t => t = s
  | _ => false

/-- Whether `pat` occurs as a contiguous run inside `l`. -/
def containsSub (pat : List Char) : List Char → Bool
  | [] => pat.isEmpty
  | c :: rest => pat.isPrefixOf (c :: rest) || containsSub pat rest

/-- Rust `str::contains(pattern)`: substring containment. -/
def strContains (text pat : String) : Bool :=
  containsSub pat.toList text.toList

/-- ASCII lowercasing of one char (`u8::to_ascii_lowercase`). -/
def asciiLower (c : Char) : Char :=
  if 'A' ≤ c ∧ c ≤ 'Z' then Char.ofNat (c.toNat + 32) else c

/-- Rust `str::eq_ignore_ascii_case`. -/
def eqIgnoreAsciiCase (a b : String) : Bool :=
  a.toList.map asciiLower == b.toList.map asciiLower

/-! ## Deserialization of `TweetItem` (serde derive)

Mirrors `TweetItem::deserialize` restricted to the retained fields: a
retained required field must be present with the right shape, a retained
`Option` field maps missing/null to `none`, `bitrate` defaults to 0 and
`__typename` of the item to `"Tweet"`.  Presence requirements of the
elided fields are dropped with them. -/

/-- A required string field. -/
def strField (f : List (String × Json)) (k : String) : Option String :=
  (objGet f k).bind Json.getStr?

/-- A required u64 field. -/
def natField (f : List (String × Json)) (k : String) : Option Nat :=
  match objGet f k with
  | some (.num n) => if 0 ≤ n then some n.toNat else none
  | _ => none

/-- An `Option<String>` field (missing or null ⇒ `none`). -/
def optStrField (f : List (String × Json)) (k : String) :
    Option (Option String) :=
  match objGet f k with
  | none => some none
  | some .null => some none
  | some (.str s) => some (some s)
  | some _ => none

/-- An `Option<T>` field deserialized by `parse` (missing or null ⇒
`none`). -/
def optField (parse : Json → Option α) (f : List (String × Json))
    (k : String) : Option (Option α) :=
  match objGet f k with
  | none => some none
  | some .null => some none
  | some v => (parse v).map some

/-- `Vec<T>` elementwise deserialization. -/
def deserializeList (parse : Json → Option α) : List Json → Option (List α)
  | [] => some []
  | x :: rest =>
      match parse x, deserializeList parse rest with
      | some a, some l => some (a :: l)
      | _, _ => none

/-- `TweetSelfThread::deserialize`. -/
def deserializeSelfThread (j : Json) : Option TweetSelfThread := do
  let f ← j.getObj?
  let s ← strField f "id_str"
  some ⟨s⟩

/-- `TweetVideoInfoVariant::deserialize` (`bitrate` defaults to 0). -/
def deserializeVariant (j : Json) : Option TweetVideoInfoVariant := do
  let f ← j.getObj?
  let bitrate ← match objGet f "bitrate" with
    | none => some 0
    | some (.num n) => if 0 ≤ n then some n.toNat else none
    | some _ => none
  let url ← strField f "url"
  some ⟨bitrate, url⟩

/-- `TweetVideoInfo::deserialize`. -/
def deserializeVideoInfo (j : Json) : Option TweetVideoInfo := do
  let f ← j.getObj?
  let vs ← (objGet f "variants").bind Json.getArr?
  let variants ← deserializeList deserializeVariant vs
  some ⟨variants⟩

/-- `TweetMediaOriginalInfo::deserialize`. -/
def deserializeOriginalInfo (j : Json) : Option TweetMediaOriginalInfo := do
  let f ← j.getObj?
  let h ← natField f "height"
  let w ← natField f "width"
  some ⟨h, w⟩

/-- `TweetMedia::deserialize` (retained fields). -/
def deserializeMedia (j : Json) : Option TweetMedia := do
  let f ← j.getObj?
  let id_str ← strField f "id_str"
  let murl ← strField f "media_url_https"
  let ty ← strField f "type"
  let oi ← (objGet f "original_info").bind deserializeOriginalInfo
  let vi ← optField deserializeVideoInfo f "video_info"
  some ⟨id_str, murl, ty, oi, vi⟩

/-- `TweetEntities::deserialize` (retained fields). -/
def deserializeEntities (j : Json) : Option TweetEntities := do
  let f ← j.getObj?
  let media ← optField
    (fun v => v.getArr?.bind (deserializeList deserializeMedia)) f "media"
  some ⟨media⟩

/-- `TweetLegacy::deserialize` (retained fields). -/
def deserializeLegacy (j : Json) : Option TweetLegacy := do
  let f ← j.getObj?
  let created_at ← strField f "created_at"
  let full_text ← strField f "full_text"
  let self_thread ← optField deserializeSelfThread f "self_thread"
  let reply ← optStrField f "in_reply_to_status_id_str"
  let entities ← (objGet f "entities").bind deserializeEntities
  let ext ← optField deserializeEntities f "extended_entities"
  some ⟨created_at, full_text, self_thread, reply, entities, ext⟩

/-- `TweetItem::deserialize` (retained fields; the absent `__typename`
defaults to `"Tweet"` per `tweet_type_default`). -/
def deserializeTweetItem (j : Json) : Option TweetItem := do
  let f ← j.getObj?
  let tn ← match objGet f "__typename" with
    | none => some "Tweet"
    | some (.str s) => some s
    | some _ => none
  let rest_id ← strField f "rest_id"
  let coreF ← (objGet f "core").bind Json.getObj?
  let urF ← (objGet coreF "user_results").bind Json.getObj?
  let resF ← (objGet urF "result").bind Json.getObj?
  let legF ← (objGet resF "legacy").bind Json.getObj?
  let sn ← strField legF "screen_name"
  let legacy ← (objGet f "legacy").bind deserializeLegacy
  some ⟨tn, rest_id, ⟨⟨⟨⟨sn⟩⟩⟩⟩, legacy⟩

/-! ## extract_all_tweets (src/tweet_parser.rs lines 252-424)

serde_json indexing distinguishes two behaviours the embedding keeps
apart: indexing a `Value` (`v["k"]`) is lenient and yields `Null`, while
indexing a `Map` obtained from `as_object()` panics when the key is
missing.  Panics are a third outcome next to `Ok`/`Err`. -/

/-- Result of processing a prefix of the entries: the map so far, an early
`return Err(..)`, or a Rust panic. -/
inductive StepRes where
  | cont (m : TweetMap)
  | halt (e : Error)
  | panicked

/-- Result of the whole parse. -/
inductive PRes (α : Type) where
  | ok (a : α)
  | err (e : Error)
  | panicked

/-- The tombstone-text phrase table (src/tweet_parser.rs lines 330-346). -/
def classifyTombstoneText (text : String) : Error :=
  if strContains text TEXT_TOMBSTONE_ACCOUNT_SUSPENDED then
    .TwitterAccountSuspended
  else if strContains text TEXT_TOMBSTONE_AUDLT_CONTENT then
    .TweetAdultContent
  else if strContains text TEXT_TOMBSTONE_USER_RESTRICTED then
    .TweetRestricted
  else if strContains text TEXT_TOMBSTONE_ACCOUNT_NOT_EXISTED then
    .TwitterAccountNotExisted
  else if strContains text TEXT_TOMBSTONE_TWEET_ILLEGAL then
    .TweetIllegalBan
  else if strContains text TEXT_TOMBSTONE_TWEET_NOT_AVALIABLE then
    .TweetNotExists
  else
    .TweetUnknownError text

/-- `TweetItem::deserialize(tweet)` + `rest_id.parse::<u64>()` +
`tweets.insert(id, tweet)` (both failures map to `TweetJsonSchemaInvalid`
via `or_else`). -/
def deserializeInsert (tweets : TweetMap) (tweet : Json) : StepRes :=
  match deserializeTweetItem tweet with
  | none => .halt .TweetJsonSchemaInvalid
  | some item =>
      match parseNat? item.rest_id with
      | none => .halt .TweetJsonSchemaInvalid
      | some tid => .cont (mapInsert tweets tid item)

/-- The `TimelineTimelineItem` branch (src/tweet_parser.rs lines 310-372),
given the entry's field map and `content["itemContent"]["tweet_results"]["result"]`. -/
def processSingleItem (id : Nat) (tweets : TweetMap)
    (entryF : List (String × Json)) (tweet0 : Json) : StepRes :=
  let nested := (tweet0.idx "__typename").eqStr "TweetWithVisibilityResults"
  let tweet := if nested then tweet0.idx "tweet" else tweet0
  if (tweet.idx "__typename").eqStr "Tweet" then
    deserializeInsert tweets tweet
  else
    if (tweet.idx "__typename").eqStr "TweetTombstone" then
      match (tweet.idx "tombstone").getObj? with
      | none => .panicked
      | some tombstone =>
          match objGet tombstone "__typename" with
          | none => .panicked
          | some tt =>
            if tt.eqStr "TextTombstone" then
              match objGet tombstone "text" with
              | none => .panicked
              | some t1 =>
                let text := ((t1.idx "text").getStr?).getD ""
                match objGet entryF "entryId" with
                | none => .panicked
                | some eidV =>
                    match eidV.getStr? with
                    | none => .panicked
                    | some eid =>
                      if eqIgnoreAsciiCase eid ("tweet-" ++ toString id) then
                        .halt (classifyTombstoneText text)
                      else if ¬ nested then .cont tweets
                      else deserializeInsert tweets tweet
            else .halt (.TweetUnknownError "Tombstone type unknown.")
    else if ¬ nested then .cont tweets
    else deserializeInsert tweets tweet

/-- One item of a `TimelineTimelineModule` (src/tweet_parser.rs lines
381-408). -/
def processModuleItem (tweets : TweetMap) (item : Json) : StepRes :=
  let tweet0 := (((item.idx "item").idx "itemContent").idx
    "tweet_results").idx "result"
  let nested := (tweet0.idx "__typename").eqStr "TweetWithVisibilityResults"
  let tweet := if nested then tweet0.idx "tweet" else tweet0
  if (tweet.idx "__typename").eqStr "Tweet" then
    deserializeInsert tweets tweet
  else if ¬ nested then .cont tweets
  else deserializeInsert tweets tweet

/-- The loop over a module's items. -/
def processModuleItems : TweetMap → List Json → StepRes
  | tweets, [] => .cont tweets
  | tweets, item :: rest =>
      match processModuleItem tweets item with
      | .cont t => processModuleItems t rest
      | r => r

/-- One iteration of the `for entry in entries` loop (src/tweet_parser.rs
lines 304-417). -/
def processEntry (id : Nat) (tweets : TweetMap) (entry : Json) : StepRes :=
  match entry.getObj? with
  | none => .halt .TweetJsonSchemaInvalid
  | some entryF =>
      match objGet entryF "content" with
      | none => .panicked
      | some contentV =>
          match contentV.getObj? with
          | none => .halt .TweetJsonSchemaInvalid
          | some content =>
              match objGet content "entryType" with
              | none => .panicked
              | some et =>
                if et.eqStr "TimelineTimelineItem" then
                  match objGet content "itemContent" with
                  | none => .panicked
                  | some ic =>
                      processSingleItem id tweets entryF
                        ((ic.idx "tweet_results").idx "result")
                else if et.eqStr "TimelineTimelineModule" then
                  match objGet content "items" with
                  | none => .panicked
                  | some iv =>
                      match iv.getArr? with
                      | none => .cont tweets
                      | some items => processModuleItems tweets items
                else
                  .halt (.Unimplemented "Entry Type handler")

/-- The whole `for entry in entries` loop. -/
def processEntries (id : Nat) : TweetMap → List Json → StepRes
  | tweets, [] => .cont tweets
  | tweets, e :: rest =>
      match processEntry id tweets e with
      | .cont t => processEntries id t rest
      | r => r

/-- The top-level `errors` scan (src/tweet_parser.rs lines 255-266). -/
def checkErrors (o : List (String × Json)) : Except Error Unit :=
  match objGet o "errors" with
  | none => .ok ()
  | some ev =>
      match ev.getArr? with
      | none => .error .TweetJsonSchemaInvalid
      | some errs =>
          if errs.any (fun e =>
              strContains ((e.idx "message").getStr?.getD "")
                TWEET_ERROR_MESSAGE_DELETED) then
            .error .TweetNotExists
          else
            .ok ()

/-- `obj.get("data")?.get("threaded_conversation_with_injections_v2")?`
`.get("instructions")?.as_array()?` with each miss a schema error. -/
def getInstructions (o : List (String × Json)) : Except Error (List Json) :=
  match ((objGet o "data").bind (fun d => d.get?
      "threaded_conversation_with_injections_v2")).bind
      (fun t => t.get? "instructions") with
  | none => .error .TweetJsonSchemaInvalid
  | some ins =>
      match ins.getArr? with
      | none => .error .TweetJsonSchemaInvalid
      | some l => .ok l

/-- The `filter` over instructions: keeps objects whose `"type"` key (a
`Map` index: missing key panics) equals `"TimelineAddEntries"`; `none`
models the panic. -/
def filterAddEntries : List Json → Option (List Json)
  | [] => some []
  | i :: rest =>
      match i.getObj? with
      | none => filterAddEntries rest
      | some f =>
          match objGet f "type" with
          | none => none
          | some t =>
              if t.eqStr "TimelineAddEntries" then
                (filterAddEntries rest).map (fun l => i :: l)
              else
                filterAddEntries rest

/-- Locating the single `TimelineAddEntries` instruction and its
`entries` array (src/tweet_parser.rs lines 252-300). -/
def getEntries (obj : Json) : PRes (List Json) :=
  match obj.getObj? with
  | none => .err .TweetJsonSchemaInvalid
  | some o =>
      match checkErrors o with
      | .error e => .err e
      | .ok () =>
          match getInstructions o with
          | .error e => .err e
          | .ok ins =>
              match filterAddEntries ins with
              | none => .panicked
              | some tae =>
                  match tae with
                  | [] => .err .TweetJsonSchemaInvalid
                  | [t] =>
                      match (t.idx "entries").getArr? with
                      | none => .err .TweetJsonSchemaInvalid
                      | some es => .ok es
                  | _ :: _ :: _ =>
                      .err (.Todo "Timelime Add Entries more than once.")

/-- `extract_all_tweets` (src/tweet_parser.rs lines 252-424). -/
def extract_all_tweets (id : Nat) (obj : Json) : PRes TweetMap :=
  match getEntries obj with
  | .err e => .err e
  | .panicked => .panicked
  | .ok entries =>
      match processEntries id [] entries with
      | .halt e => .err e
      | .panicked => .panicked
      | .cont tweets =>
          if mapContains tweets id then .ok tweets
          else .err .TweetJsonSchemaInvalid

/-! ## The per-URL processor closure (src/fetcher.rs lines 176-266)

The closure's I/O context (the raw-cache read and the JSON parse) is
passed in as the already-computed `tweets_result`; the database side
effects and the shared counters it mutates are collected in `ProcState`.
In the model `tweets_result` always carries a `utils::Error`, so the
`downcast_ref` at line 233 always succeeds. -/

/-- The shared mutable state the processor closure touches. -/
structure ProcState where
  success_count : Nat
  restricted_count : Nat
  deleted_count : Nat
  account_suspended_count : Nat
  account_not_existed_count : Nat
  remaining : List String
  tweet_without_media : List String
  insertedTweets : List Tweet
  insertedMedias : List Media
  insertedThreads : List ThreadInfo
  failRows : List (String × TweetFailReason)
  deriving Repr

/-- `ids.into_iter().map(|v| tweet.get(&v).unwrap())` — `none` models the
`unwrap` panic. -/
def lookupAll (tweets : TweetMap) : List Nat → Option (List TweetItem)
  | [] => some []
  | x :: rest =>
      match mapLookup tweets x, lookupAll tweets rest with
      | some it, some l => some (it :: l)
      | _, _ => none

/-- `thread_tweets.iter().map(|v| v.get_medias()).flatten()`. -/
def mediasAll : List TweetItem → Option (List Media)
  | [] => some []
  | it :: rest =>
      match it.get_medias, mediasAll rest with
      | some ms, some l => some (ms ++ l)
      | _, _ => none

/-- `thread_tweets.iter().map(|v| v.as_tweet())`. -/
def tweetsAll (parseDate : String → Option Nat) :
    List TweetItem → Option (List Tweet)
  | [] => some []
  | it :: rest =>
      match it.as_tweet parseDate, tweetsAll parseDate rest with
      | some t, some l => some (t :: l)
      | _, _ => none

/-- `map(as_thread).filter(is_some).map(unwrap)` — the outer `none`
models a panic inside `as_thread`. -/
def threadsAll : List TweetItem → Option (List ThreadInfo)
  | [] => some []
  | it :: rest =>
      match it.as_thread, threadsAll rest with
      | some none, some l => some l
      | some (some ti), some l => some (ti :: l)
      | _, _ => none

/-- The `Ok` branch of the processor (src/fetcher.rs lines 185-213):
the `(tweets, medias, threads)` triple to persist; `none` models a panic. -/
def processOk (parseDate : String → Option Nat) (id : Nat)
    (tweets : TweetMap) :
    Option (List Tweet × List Media × List ThreadInfo) :=
  match get_thread id tweets with
  | some ids =>
      match lookupAll tweets ids with
      | none => none
      | some items =>
          match mediasAll items, tweetsAll parseDate items,
              threadsAll items with
          | some ms, some ts, some ths => some (ts, ms, ths)
          | _, _, _ => none
  | none =>
      match mapLookup tweets id with
      | none => none
      | some item =>
          match item.as_tweet parseDate, item.get_medias with
          | some t, some ms => some ([t], ms, [])
          | _, _ => none

/-- Result of one processor call. -/
inductive ProcResult where
  | ok (st : ProcState)
  | panicked

/-- The processor closure `processor(url, retry_restricted)`
(src/fetcher.rs lines 176-266). -/
def processor (parseDate : String → Option Nat) (url : String) (id : Nat)
    (tweets_result : Except Error TweetMap) (retry_restricted : Bool)
    (st : ProcState) : ProcResult :=
  match tweets_result with
  | .ok tweet =>
      match processOk parseDate id tweet with
      | none => .panicked
      | some (tweets, medias, threads) =>
          let st := if medias.isEmpty then
              { st with tweet_without_media := st.tweet_without_media ++ [url] }
            else st
          .ok { st with
                insertedTweets := st.insertedTweets ++ tweets
                insertedMedias := st.insertedMedias ++ medias
                insertedThreads := st.insertedThreads ++ threads
                success_count := st.success_count + 1 }
  | .error err =>
      match err.try_make_fail_reason with
      | some fail =>
          let st := match fail with
            | .Restricted =>
                if retry_restricted then
                  { st with remaining := st.remaining ++ [url] }
                else
                  { st with restricted_count := st.restricted_count + 1 }
            | .Deleted => { st with deleted_count := st.deleted_count + 1 }
            | .AccountSuspended =>
                { st with account_suspended_count :=
                    st.account_suspended_count + 1 }
            | .AccountNotExisted =>
                { st with account_not_existed_count :=
                    st.account_not_existed_count + 1 }
          let st := match fail with
            | .Restricted =>
                if ¬ retry_restricted then
                  { st with failRows := st.failRows ++ [(url, fail)] }
                else st
            | _ => { st with failRows := st.failRows ++ [(url, fail)] }
          .ok st
      | none => .ok { st with remaining := st.remaining ++ [url] }

/-- The anonymous-tier call site is `processor(url.as_str(), true)`
(src/fetcher.rs line 289). -/
def anonRetryRestricted : Bool := true

/-- The authenticated-tier call site is `processor(url.as_str(), false)`
(src/fetcher.rs line 347); the flag is `false` nowhere else. -/
def authRetryRestricted : Bool := false

/-! ## Helper lemmas -/

/-- Number of leading rate-limited responses of a script. -/
def leadRL : List FetchResp → Nat
  | .rateLimited :: rest => leadRL rest + 1
  | _ => 0

theorem fetchLoop_sleeps (script : List FetchResp) :
    ∀ c, (fetchLoop script c).1 =
      (List.range (leadRL script)).map (fun i => rlSleepSecs (c + i)) := by
  induction script with
  | nil => intro c; simp [fetchLoop, leadRL]
  | cons hd rest ih =>
      intro c
      cases hd with
      | rateLimited =>
          simp only [fetchLoop, leadRL]
          rw [ih (c + 1), List.range_succ_eq_map, List.map_cons,
            List.map_map]
          refine congrArg₂ List.cons (by simp) ?_
          apply List.map_congr_left
          intro i _
          simp only [Function.comp_apply]
          congr 1
          omega
      | ok json => simp [fetchLoop, leadRL]
      | err e => simp [fetchLoop, leadRL]

theorem fetchLoop_failed_mem (script : List FetchResp) :
    ∀ c e, (fetchLoop script c).2 = some (.failed e) →
      FetchResp.err e ∈ script := by
  induction script with
  | nil => intro c e h; simp [fetchLoop] at h
  | cons hd rest ih =>
      intro c e h
      cases hd with
      | rateLimited =>
          simp only [fetchLoop] at h
          exact List.mem_cons_of_mem _ (ih (c + 1) e h)
      | ok json => simp [fetchLoop] at h
      | err e' =>
          simp only [fetchLoop, Option.some.injEq, FetchOutcome.failed.injEq]
            at h
          simp [h]

theorem fetchLoop_allRL (k : Nat) :
    ∀ c, (fetchLoop (List.replicate k .rateLimited) c).2 = none := by
  induction k with
  | zero => intro c; simp [fetchLoop, List.replicate]
  | succ n ih => intro c; simp only [List.replicate, fetchLoop]; exact ih _

/-! ## C1 — fetch-loop rate-limit backoff -/

/-- C1 counterexample: with two consecutive rate-limited responses the
loop sleeps 60 then 600 seconds, but the claim's formula for the 2nd
consecutive occurrence (n = 2) demands `600 + 120*(2-1) = 720` seconds. -/
theorem c1_counterexample :
    fetchLoop [.rateLimited, .rateLimited, .ok "j"] 0 =
      ([60, 600], some (.got "j")) ∧
    ¬ (600 : Nat) = 600 + 120 * (2 - 1) := by
  constructor
  · rfl
  · decide

/-- C1 (amended): the first rate-limited response sleeps 60s and the n-th
consecutive one with n ≥ 2 sleeps `600 + 120*(n-2)` seconds (below the
0-based position `p` is occurrence `n = p+1`, so the formula reads
`600 + 120*(p-1)`); the same id is retried indefinitely on rate-limit
(the outcome stays pending under any number of consecutive rate-limits),
and a URL reaches the failed set only through a response that is an
actual non-rate-limit error. -/
theorem c1_rate_limit_backoff :
    (∀ (script : List FetchResp) (p : Nat),
        p < leadRL script →
        (fetchLoop script 0).1[p]? =
          some (if p = 0 then 60 else 600 + 120 * (p - 1))) ∧
    (∀ k : Nat,
        (fetchLoop (List.replicate k .rateLimited) 0).2 = none ∧
        urlFailedByScript (List.replicate k .rateLimited) = false) ∧
    (∀ (script : List FetchResp) (e : Error),
        (fetchLoop script 0).2 = some (.failed e) →
          FetchResp.err e ∈ script) := by
  refine ⟨?_, ?_, ?_⟩
  · intro script p hp
    rw [fetchLoop_sleeps script 0]
    rw [List.getElem?_map]
    rw [List.getElem?_range hp]
    simp [rlSleepSecs]
  · intro k
    refine ⟨fetchLoop_allRL k 0, ?_⟩
    unfold urlFailedByScript
    rw [fetchLoop_allRL k 0]
  · intro script e h
    exact fetchLoop_failed_mem script 0 e h

/-- C1 witness: in a run with four consecutive rate-limits the sleeps are
60, 600, 720, 840 seconds and the URL is never failed. -/
theorem c1_rate_limit_backoff_witness :
    (fetchLoop
        [.rateLimited, .rateLimited, .rateLimited, .rateLimited] 0).1[2]? =
      some 720 ∧
    urlFailedByScript (List.replicate 4 .rateLimited) = false := by
  constructor
  · have h := c1_rate_limit_backoff.1
      [.rateLimited, .rateLimited, .rateLimited, .rateLimited] 2 (by decide)
    simpa using h
  · exact (c1_rate_limit_backoff.2.1 4).2

/-! ## C3 — persistence-store insert error handling -/

/-- C3 counterexample: an `SqliteFailure` whose code is not the allowed
constraint-violation code (here `databaseBusy`) is swallowed by
`insert_tweet` — the call returns without panicking — although the claim
says any storage error other than a unique-constraint collision aborts
the run. -/
theorem c3_counterexample :
    insert_tweet (some (.sqliteFailure .databaseBusy)) []
        ⟨1, "a", "c", 0⟩ = ([], false) ∧
    ¬ SqlErrorCode.databaseBusy = SqlErrorCode.constraintViolation := by
  constructor
  · rfl
  · decide

/-- C3 (amended): for `insert_tweet`, `insert_media` and `insert_thread`,
inserting a row whose unique key already exists is swallowed as a benign
no-op — the table is unchanged (so exactly one row with that key remains)
and no panic is raised; a storage error that is not an SQLite-level
failure is fatal (panics); an SQLite-level failure with any other error
code is logged and swallowed, not fatal. -/
theorem c3_insert_error_handling :
    (∀ (tbl : List Tweet) (t : Tweet),
        tbl.countP (fun r => r.id = t.id) = 1 →
          insert_tweet none tbl t = (tbl, false)) ∧
    (∀ (tbl : List Media) (m : Media),
        tbl.countP (fun r => r.id = m.id || r.url = m.url) = 1 →
          insert_media none tbl m = (tbl, false)) ∧
    (∀ (tbl : List ThreadInfo) (ti : ThreadInfo),
        tbl.countP (fun r => r.tweet_id = ti.tweet_id) = 1 →
          insert_thread none tbl ti = (tbl, false)) ∧
    (∀ (tbl : List Tweet) (t : Tweet),
        (insert_tweet (some .otherError) tbl t).2 = true) ∧
    (∀ (tbl : List Tweet) (t : Tweet) (c : SqlErrorCode),
        (insert_tweet (some (.sqliteFailure c)) tbl t).2 = false) := by
  refine ⟨?_, ?_, ?_, ?_, ?_⟩
  · intro tbl t h
    have hany : tbl.any (fun r => r.id = t.id) = true := by
      by_contra hc
      rw [Bool.not_eq_true, List.any_eq_false] at hc
      have h0 : tbl.countP (fun r => r.id = t.id) = 0 :=
        List.countP_eq_zero.mpr hc
      omega
    simp [insert_tweet, sqlInsertTweet, hany, do_rusqlite_error]
  · intro tbl m h
    have hany : tbl.any (fun r => r.id = m.id || r.url = m.url) = true := by
      by_contra hc
      rw [Bool.not_eq_true, List.any_eq_false] at hc
      have h0 : tbl.countP (fun r => r.id = m.id || r.url = m.url) = 0 :=
        List.countP_eq_zero.mpr hc
      omega
    simp [insert_media, sqlInsertMedia, hany, do_rusqlite_error]
  · intro tbl ti h
    have hany : tbl.any (fun r => r.tweet_id = ti.tweet_id) = true := by
      by_contra hc
      rw [Bool.not_eq_true, List.any_eq_false] at hc
      have h0 : tbl.countP (fun r => r.tweet_id = ti.tweet_id) = 0 :=
        List.countP_eq_zero.mpr hc
      omega
    simp [insert_thread, sqlInsertThread, hany, do_rusqlite_error]
  · intro tbl t
    simp [insert_tweet, do_rusqlite_error]
  · intro tbl t c
    simp [insert_tweet, do_rusqlite_error]

/-- C3 witness: a duplicate tweet insert on a one-row table is a no-op
without panic; a non-SQLite storage error panics; a busy-database SQLite
failure does not. -/
theorem c3_insert_error_handling_witness :
    insert_tweet none [⟨1, "a", "c", 0⟩] ⟨1, "b", "d", 5⟩ =
      ([⟨1, "a", "c", 0⟩], false) ∧
    (insert_tweet (some .otherError) [] ⟨1, "a", "c", 0⟩).2 = true := by
  constructor
  · exact c3_insert_error_handling.1 [⟨1, "a", "c", 0⟩] ⟨1, "b", "d", 5⟩
      (by decide)
  · exact c3_insert_error_handling.2.2.2.1 [] ⟨1, "a", "c", 0⟩

/-! ## C8 — raw-cache contract -/

theorem find?_append_of_none {α : Type} (p : α → Bool) (l₁ l₂ : List α)
    (h : l₁.find? p = none) : (l₁ ++ l₂).find? p = l₂.find? p := by
  induction l₁ with
  | nil => simp
  | cons a rest ih =>
      rw [List.cons_append]
      cases hp : p a with
      | true =>
          rw [List.find?_cons_of_pos _ hp] at h
          simp at h
      | false =>
          rw [List.find?_cons_of_neg _ (by simp [hp])] at h
          rw [List.find?_cons_of_neg _ (by simp [hp])]
          exact ih h

/-- C8: after a successful `insert(id, url, json)`, `is_exist id` holds and
`get_json id` returns the stored json; a second insert with the same id
(or the same url) fails with the duplicate-key error and the stored row
still reads back unchanged; after `remove id`, `is_exist id` is false. -/
theorem c8_raw_cache_contract :
    (∀ (tbl tbl' : List RawRow) (id : Nat) (url json : String),
        RawDb.insert tbl id url json = .ok tbl' →
          RawDb.is_exist tbl' id = true ∧
          RawDb.get_json tbl' id = .ok json ∧
          (∀ url2 json2,
            RawDb.insert tbl' id url2 json2 = .error .duplicateKey) ∧
          (∀ id2 json2,
            RawDb.insert tbl' id2 url json2 = .error .duplicateKey)) ∧
    (∀ (tbl : List RawRow) (id : Nat),
        RawDb.is_exist (RawDb.remove tbl id) id = false) := by
  constructor
  · intro tbl tbl' id url json h
    unfold RawDb.insert at h
    cases hg : tbl.any (fun r => r.id = id || r.url = url) with
    | true => rw [hg] at h; simp at h
    | false =>
        rw [hg] at h
        simp only [Bool.false_eq_true, if_false, Except.ok.injEq] at h
        subst h
        have hall := List.any_eq_false.mp hg
        have hfind : tbl.find? (fun r => r.id = id) = none := by
          rw [List.find?_eq_none]
          intro r hr
          have := hall r hr
          simp only [Bool.or_eq_true, decide_eq_true_eq, not_or] at this
          simp [this.1]
        refine ⟨?_, ?_, ?_, ?_⟩
        · simp [RawDb.is_exist, List.any_append]
        · unfold RawDb.get_json
          rw [find?_append_of_none _ _ _ hfind]
          simp [List.find?]
        · intro url2 json2
          simp [RawDb.insert, List.any_append]
        · intro id2 json2
          simp [RawDb.insert, List.any_append]
  · intro tbl id
    simp only [RawDb.is_exist, RawDb.remove]
    rw [List.any_eq_false]
    intro r hr
    rw [List.mem_filter] at hr
    simpa using hr.2

/-- C8 witness: on a freshly inserted row (id 1, url "u", json "j") the
contract holds concretely. -/
theorem c8_raw_cache_contract_witness :
    RawDb.is_exist [⟨1, "u", "j"⟩] 1 = true ∧
    RawDb.get_json [⟨1, "u", "j"⟩] 1 = .ok "j" ∧
    RawDb.insert [⟨1, "u", "j"⟩] 1 "u2" "j2" = .error .duplicateKey ∧
    RawDb.insert [⟨1, "u", "j"⟩] 2 "u" "j2" = .error .duplicateKey ∧
    RawDb.is_exist (RawDb.remove [⟨1, "u", "j"⟩] 1) 1 = false := by
  have h := c8_raw_cache_contract.1 [] [⟨1, "u", "j"⟩] 1 "u" "j" (by rfl)
  exact ⟨h.1, h.2.1, h.2.2.1 "u2" "j2", h.2.2.2 2 "j2",
    c8_raw_cache_contract.2 [⟨1, "u", "j"⟩] 1⟩

/-! ## C10 — fail-reason encoding round-trip -/

/-- C10: `TweetFailReason::try_from ∘ to_string` is the identity, and
`try_from` rejects exactly the strings outside the four encodings. -/
theorem c10_fail_reason_roundtrip :
    (∀ r : TweetFailReason,
        TweetFailReason.try_from r.to_string = .ok r) ∧
    (∀ s : String,
        TweetFailReason.try_from s = .error () ↔
          (s ≠ "restricted" ∧ s ≠ "deleted" ∧ s ≠ "account suspended" ∧
            s ≠ "account not existed")) := by
  constructor
  · intro r
    cases r <;> rfl
  · intro s
    unfold TweetFailReason.try_from
    by_cases h1 : s = "restricted" <;> by_cases h2 : s = "deleted" <;>
      by_cases h3 : s = "account suspended" <;>
      by_cases h4 : s = "account not existed" <;>
      simp [h1, h2, h3, h4]

/-! ## C9 — soundness of a `Some` result of get_thread -/

theorem mapLookup_of_mem :
    ∀ (tweets : TweetMap) (pr : Nat × TweetItem),
      nodupKeys tweets → pr ∈ tweets → mapLookup tweets pr.1 = some pr.2 := by
  intro tweets
  induction tweets with
  | nil =>
      intro pr _ hm
      simp at hm
  | cons q rest ih =>
      intro pr hnd hm
      have hnds : (q.1 ∉ rest.map Prod.fst) ∧ nodupKeys rest := by
        unfold nodupKeys at hnd
        simp only [List.map_cons, List.nodup_cons] at hnd
        exact hnd
      unfold mapLookup
      by_cases hq : q.1 = pr.1
      · rw [List.find?_cons_of_pos _ (by simp [hq])]
        rcases List.mem_cons.mp hm with h | h
        · simp [h]
        · exact absurd (by rw [hq]; exact List.mem_map.mpr ⟨pr, h, rfl⟩)
            hnds.1
      · rw [List.find?_cons_of_neg _ (by simp [hq])]
        rcases List.mem_cons.mp hm with h | h
        · exact absurd (congrArg Prod.fst h.symm) hq
        · exact ih pr hnds.2 h

theorem mapLookup_mem_and_key (tweets : TweetMap) (k : Nat)
    (it : TweetItem) (h : mapLookup tweets k = some it) :
    ∃ pr ∈ tweets, pr.1 = k ∧ pr.2 = it := by
  unfold mapLookup at h
  rcases Option.map_eq_some'.mp h with ⟨pr, hfind, hsnd⟩
  refine ⟨pr, List.mem_of_find?_eq_some hfind, ?_, hsnd⟩
  have := List.find?_some hfind
  simpa using this

/-- C9: whenever `get_thread` returns `Some(list)`, the list has at least
two elements, contains the requested id, and every element is a key of
the map whose item carries the requested item's self-thread id. -/
theorem c9_get_thread_some_invariants :
    ∀ (tweets : TweetMap) (id : Nat) (l : List Nat),
      nodupKeys tweets →
      get_thread id tweets = some l →
      2 ≤ l.length ∧ id ∈ l ∧
      ∃ item st, mapLookup tweets id = some item ∧
        item.legacy.self_thread = some st ∧
        ∀ x ∈ l, ∃ itx, mapLookup tweets x = some itx ∧
          hasThreadId st.id_str itx = true := by
  intro tweets id l hnd h
  unfold get_thread at h
  split at h
  · simp at h
  · rename_i item hlk
    split at h
    · simp at h
    · rename_i st hst
      simp only [] at h
      split at h
      · simp at h
      · rename_i hlen
        have hl : threadMembers tweets st.id_str = l :=
          Option.some.inj h
        obtain ⟨pr, hprm, hpr1, hpr2⟩ :=
          mapLookup_mem_and_key tweets id item hlk
        have hidmem : id ∈ l := by
          rw [← hl]
          unfold threadMembers
          exact List.mem_map.mpr ⟨pr,
            List.mem_filter.mpr ⟨hprm, by
              simp [hasThreadId, hpr2, hst]⟩, hpr1⟩
        refine ⟨?_, hidmem, item, st, hlk, hst, ?_⟩
        · have hpos : 0 < l.length := List.length_pos_of_mem hidmem
          rw [← hl] at hpos ⊢
          rw [← hl] at hidmem
          omega
        · intro x hx
          rw [← hl] at hx
          unfold threadMembers at hx
          rcases List.mem_map.mp hx with ⟨p, hpf, hpx⟩
          rcases List.mem_filter.mp hpf with ⟨hpm, hppred⟩
          refine ⟨p.2, ?_, hppred⟩
          rw [← hpx]
          exact mapLookup_of_mem tweets p hnd hpm

/-- Empty entity list used by the concrete examples. -/
def entsEmpty : TweetEntities := ⟨none⟩

/-- Concrete thread item 1 (root: self-thread id "1", no in-reply-to). -/
def itemA : TweetItem :=
  ⟨"Tweet", "1", ⟨⟨⟨⟨"alice"⟩⟩⟩⟩,
    ⟨"date", "hello", some ⟨"1"⟩, none, entsEmpty, none⟩⟩

/-- Concrete thread item 2 (reply: self-thread id "1", replies to 1). -/
def itemB : TweetItem :=
  ⟨"Tweet", "2", ⟨⟨⟨⟨"alice"⟩⟩⟩⟩,
    ⟨"date", "world", some ⟨"1"⟩, some "1", entsEmpty, none⟩⟩

/-- A two-item thread map. -/
def mapAB : TweetMap := [(1, itemA), (2, itemB)]

/-- C9 witness: on the concrete two-item thread map, get_thread yields
`[1, 2]` and the invariants hold. -/
theorem c9_get_thread_some_invariants_witness :
    2 ≤ ([1, 2] : List Nat).length ∧ (1 : Nat) ∈ ([1, 2] : List Nat) ∧
    ∃ item st, mapLookup mapAB 1 = some item ∧
      item.legacy.self_thread = some st ∧
      ∀ x ∈ ([1, 2] : List Nat), ∃ itx, mapLookup mapAB x = some itx ∧
        hasThreadId st.id_str itx = true :=
  c9_get_thread_some_invariants mapAB 1 [1, 2] (by decide) (by rfl)

/-! ## C4 — thread resolution and persistence of a thread -/

theorem lookupAll_length :
    ∀ (tweets : TweetMap) (ids : List Nat) (items : List TweetItem),
      lookupAll tweets ids = some items → items.length = ids.length := by
  intro tweets ids
  induction ids with
  | nil =>
      intro items h
      unfold lookupAll at h
      simp at h
      simp [← h]
  | cons x rest ih =>
      intro items h
      unfold lookupAll at h
      cases hx : mapLookup tweets x with
      | none => rw [hx] at h; simp at h
      | some it =>
          rw [hx] at h
          cases hr : lookupAll tweets rest with
          | none => rw [hr] at h; simp at h
          | some l =>
              rw [hr] at h
              simp at h
              rw [← h]
              simp [ih l hr]

theorem tweetsAll_length :
    ∀ (parseDate : String → Option Nat) (items : List TweetItem)
      (ts : List Tweet),
      tweetsAll parseDate items = some ts → ts.length = items.length := by
  intro parseDate items
  induction items with
  | nil =>
      intro ts h
      unfold tweetsAll at h
      simp at h
      simp [← h]
  | cons it rest ih =>
      intro ts h
      unfold tweetsAll at h
      cases hx : it.as_tweet parseDate with
      | none => rw [hx] at h; simp at h
      | some t =>
          rw [hx] at h
          cases hr : tweetsAll parseDate rest with
          | none => rw [hr] at h; simp at h
          | some l =>
              rw [hr] at h
              simp at h
              rw [← h]
              simp [ih l hr]

theorem lookupAll_mem_pred (tweets : TweetMap) (P : TweetItem → Bool) :
    ∀ (ids : List Nat) (items : List TweetItem),
      (∀ x ∈ ids, ∀ itx, mapLookup tweets x = some itx → P itx = true) →
      lookupAll tweets ids = some items →
      ∀ it ∈ items, P it = true := by
  intro ids
  induction ids with
  | nil =>
      intro items _ h
      unfold lookupAll at h
      simp at h
      subst h
      intro it hit
      simp at hit
  | cons x rest ih =>
      intro items hall h
      unfold lookupAll at h
      cases hx : mapLookup tweets x with
      | none => rw [hx] at h; simp at h
      | some it0 =>
          rw [hx] at h
          cases hr : lookupAll tweets rest with
          | none => rw [hr] at h; simp at h
          | some l =>
              rw [hr] at h
              simp at h
              intro it hit
              rw [← h] at hit
              rcases List.mem_cons.mp hit with h1 | h1
              · rw [h1]
                exact hall x (List.mem_cons_self x rest) it0 hx
              · exact ih l
                  (fun y hy => hall y (List.mem_cons_of_mem x hy)) hr it h1

theorem threadMembers_lookup_pred (tweets : TweetMap) (tid : String)
    (hnd : nodupKeys tweets) :
    ∀ x ∈ threadMembers tweets tid, ∀ itx,
      mapLookup tweets x = some itx → hasThreadId tid itx = true := by
  intro x hx itx hlk
  unfold threadMembers at hx
  rcases List.mem_map.mp hx with ⟨p, hpf, hpx⟩
  rcases List.mem_filter.mp hpf with ⟨hpm, hppred⟩
  have hl := mapLookup_of_mem tweets p hnd hpm
  rw [hpx, hlk] at hl
  rw [Option.some.inj hl]
  exact hppred

theorem hasThreadId_isSome (tid : String) (it : TweetItem)
    (h : hasThreadId tid it = true) :
    it.legacy.self_thread.isSome = true := by
  unfold hasThreadId at h
  cases hs : it.legacy.self_thread with
  | none => rw [hs] at h; simp at h
  | some s => simp

theorem threadsAll_countP :
    ∀ (items : List TweetItem) (l : List ThreadInfo),
      threadsAll items = some l →
      (∀ it ∈ items, it.legacy.self_thread.isSome = true) →
      l.length = items.countP
        (fun it => it.legacy.in_reply_to_status_id_str.isSome) := by
  intro items
  induction items with
  | nil =>
      intro l h _
      unfold threadsAll at h
      simp at h
      simp [← h]
  | cons it rest ih =>
      intro l h hall
      unfold threadsAll at h
      cases h1 : it.as_thread with
      | none => rw [h1] at h; simp at h
      | some o =>
          rw [h1] at h
          cases h2 : threadsAll rest with
          | none => rw [h2] at h; cases o <;> simp at h
          | some l' =>
              rw [h2] at h
              cases o with
              | none =>
                  simp at h
                  have hpred :
                      it.legacy.in_reply_to_status_id_str.isSome = false := by
                    have hsome := hall it (List.mem_cons_self it rest)
                    cases hs : it.legacy.self_thread with
                    | none =>
                        rw [hs] at hsome
                        simp at hsome
                    | some stx =>
                        cases hr : it.legacy.in_reply_to_status_id_str with
                        | none => simp [hr]
                        | some r =>
                            simp only [TweetItem.as_thread, hs, hr] at h1
                            split at h1 <;> simp at h1
                  rw [List.countP_cons]
                  simp only [hpred, if_false, Bool.false_eq_true, add_zero]
                  rw [← h]
                  exact ih l' h2
                    (fun x hx => hall x (List.mem_cons_of_mem it hx))
              | some ti =>
                  simp at h
                  have hpred :
                      it.legacy.in_reply_to_status_id_str.isSome = true := by
                    cases hs : it.legacy.self_thread with
                    | none => simp [TweetItem.as_thread, hs] at h1
                    | some stx =>
                        cases hr : it.legacy.in_reply_to_status_id_str with
                        | none => simp [TweetItem.as_thread, hs, hr] at h1
                        | some r => simp [hr]
                  rw [List.countP_cons]
                  simp only [hpred, if_true]
                  have hlen := ih l' h2
                    (fun x hx => hall x (List.mem_cons_of_mem it hx))
                  rw [← h]
                  simp [hlen]

/-- C4: if `N` items of the parse result share the requested item's
self-thread id, then for `N ≥ 2` `get_thread` returns exactly that id
set and the processor's success branch persists one Post per member and
one ThreadEdge per member carrying an in-reply-to id; for `N = 1`
`get_thread` returns `None` and no ThreadEdge is produced. -/
theorem c4_thread_resolution :
    ∀ (tweets : TweetMap) (id : Nat) (item : TweetItem)
      (st : TweetSelfThread) (parseDate : String → Option Nat),
      nodupKeys tweets →
      mapLookup tweets id = some item →
      item.legacy.self_thread = some st →
      (2 ≤ (threadMembers tweets st.id_str).length →
        get_thread id tweets = some (threadMembers tweets st.id_str) ∧
        ∀ ts ms ths,
          processOk parseDate id tweets = some (ts, ms, ths) →
          ts.length = (threadMembers tweets st.id_str).length ∧
          ∃ items,
            lookupAll tweets (threadMembers tweets st.id_str) = some items ∧
            ths.length = items.countP
              (fun it => it.legacy.in_reply_to_status_id_str.isSome)) ∧
      ((threadMembers tweets st.id_str).length = 1 →
        get_thread id tweets = none ∧
        ∀ ts ms ths,
          processOk parseDate id tweets = some (ts, ms, ths) → ths = []) := by
  intro tweets id item st parseDate hnd hlk hst
  constructor
  · intro h2
    have hgt : get_thread id tweets =
        some (threadMembers tweets st.id_str) := by
      unfold get_thread
      simp only [hlk, hst]
      rw [if_neg (by omega)]
    refine ⟨hgt, ?_⟩
    intro ts ms ths hpo
    unfold processOk at hpo
    simp only [hgt] at hpo
    cases hla : lookupAll tweets (threadMembers tweets st.id_str) with
    | none => simp only [hla] at hpo; simp at hpo
    | some items =>
        simp only [hla] at hpo
        cases hma : mediasAll items with
        | none => simp only [hma] at hpo; simp at hpo
        | some ms0 =>
            simp only [hma] at hpo
            cases hta : tweetsAll parseDate items with
            | none => simp only [hta] at hpo; simp at hpo
            | some ts0 =>
                simp only [hta] at hpo
                cases hha : threadsAll items with
                | none => simp only [hha] at hpo; simp at hpo
                | some ths0 =>
                    simp only [hha] at hpo
                    simp at hpo
                    obtain ⟨hts, hms, hths⟩ := hpo
                    constructor
                    · rw [← hts]
                      rw [tweetsAll_length parseDate items ts0 hta]
                      exact lookupAll_length tweets _ items hla
                    · refine ⟨items, rfl, ?_⟩
                      rw [← hths]
                      apply threadsAll_countP items ths0 hha
                      intro it hit
                      apply hasThreadId_isSome st.id_str
                      exact lookupAll_mem_pred tweets
                        (hasThreadId st.id_str) _ items
                        (threadMembers_lookup_pred tweets st.id_str hnd)
                        hla it hit
  · intro h1
    have hgt : get_thread id tweets = none := by
      unfold get_thread
      simp only [hlk, hst]
      rw [if_pos h1]
    refine ⟨hgt, ?_⟩
    intro ts ms ths hpo
    unfold processOk at hpo
    simp only [hgt, hlk] at hpo
    cases hat : item.as_tweet parseDate with
    | none => simp only [hat] at hpo; simp at hpo
    | some t =>
        simp only [hat] at hpo
        cases hgm : item.get_medias with
        | none => simp only [hgm] at hpo; simp at hpo
        | some ms0 =>
            simp only [hgm] at hpo
            simp at hpo
            exact hpo.2.2

/-- C4 witness: on the concrete two-item thread map (`N = 2`),
`get_thread` returns both ids, two Posts are produced and exactly one
ThreadEdge (only the second item carries an in-reply-to id). -/
theorem c4_thread_resolution_witness :
    get_thread 1 mapAB = some (threadMembers mapAB "1") ∧
    ([(⟨1, "alice", "hello", 0⟩ : Tweet),
        ⟨2, "alice", "world", 0⟩].length =
      (threadMembers mapAB "1").length ∧
    ∃ items, lookupAll mapAB (threadMembers mapAB "1") = some items ∧
      ([(⟨2, 1, 1⟩ : ThreadInfo)]).length = items.countP
        (fun it => it.legacy.in_reply_to_status_id_str.isSome)) := by
  have h := (c4_thread_resolution mapAB 1 itemA ⟨"1"⟩ (fun _ => none)
    (by decide) (by rfl) (by rfl)).1 (by decide)
  exact ⟨h.1, h.2
    [⟨1, "alice", "hello", 0⟩, ⟨2, "alice", "world", 0⟩] []
    [⟨2, 1, 1⟩] (by rfl)⟩

/-! ## C6 — media variant selection and ordinals -/

theorem pickMaxBitrate_foldl_spec :
    ∀ (l : List TweetVideoInfoVariant) (acc : Option TweetVideoInfoVariant)
      (v : TweetVideoInfoVariant),
      l.foldl pickMaxBitrate acc = some v →
      (acc = some v ∨ v ∈ l) ∧
      (∀ a, acc = some a → a.bitrate ≤ v.bitrate) ∧
      (∀ w ∈ l, w.bitrate ≤ v.bitrate) := by
  intro l
  induction l with
  | nil =>
      intro acc v h
      simp at h
      refine ⟨Or.inl h, ?_, by simp⟩
      intro a ha
      rw [h] at ha
      rw [Option.some.inj ha]
  | cons x rest ih =>
      intro acc v h
      rw [List.foldl_cons] at h
      have hstep := ih (pickMaxBitrate acc x) v h
      cases acc with
      | none =>
          have hx : pickMaxBitrate none x = some x := rfl
          rw [hx] at hstep
          have hxv : x.bitrate ≤ v.bitrate := hstep.2.1 x rfl
          refine ⟨?_, by simp, ?_⟩
          · rcases hstep.1 with h1 | h1
            · exact Or.inr (by rw [← Option.some.inj h1]; exact
                List.mem_cons_self x rest)
            · exact Or.inr (List.mem_cons_of_mem x h1)
          · intro w hw
            rcases List.mem_cons.mp hw with h1 | h1
            · rw [h1]; exact hxv
            · exact hstep.2.2 w h1
      | some a =>
          by_cases hab : a.bitrate > x.bitrate
          · have hx : pickMaxBitrate (some a) x = some a := by
              simp [pickMaxBitrate, hab]
            rw [hx] at hstep
            have hav : a.bitrate ≤ v.bitrate := hstep.2.1 a rfl
            refine ⟨?_, ?_, ?_⟩
            · rcases hstep.1 with h1 | h1
              · exact Or.inl h1
              · exact Or.inr (List.mem_cons_of_mem x h1)
            · intro a2 ha2
              rw [← Option.some.inj ha2]
              exact hav
            · intro w hw
              rcases List.mem_cons.mp hw with h1 | h1
              · rw [h1]; omega
              · exact hstep.2.2 w h1
          · have hx : pickMaxBitrate (some a) x = some x := by
              simp [pickMaxBitrate, hab]
            rw [hx] at hstep
            have hxv : x.bitrate ≤ v.bitrate := hstep.2.1 x rfl
            refine ⟨?_, ?_, ?_⟩
            · rcases hstep.1 with h1 | h1
              · exact Or.inr (by rw [← Option.some.inj h1]; exact
                  List.mem_cons_self x rest)
              · exact Or.inr (List.mem_cons_of_mem x h1)
            · intro a2 ha2
              rw [← Option.some.inj ha2]
              omega
            · intro w hw
              rcases List.mem_cons.mp hw with h1 | h1
              · rw [h1]; exact hxv
              · exact hstep.2.2 w h1

theorem mediasFrom_no :
    ∀ (ms : List TweetMedia) (restId : String) (k : Nat) (l : List Media),
      mediasFrom restId k ms = some l →
      ∀ (p : Nat) (h : p < l.length), (l.get ⟨p, h⟩).no = k + p + 1 := by
  intro ms
  induction ms with
  | nil =>
      intro restId k l h p hp
      unfold mediasFrom at h
      simp at h
      subst h
      simp at hp
  | cons m rest ih =>
      intro restId k l h p hp
      unfold mediasFrom at h
      cases hu : mediaUrl m with
      | none => rw [hu] at h; simp at h
      | some url =>
          rw [hu] at h
          cases hn : parseNat? restId with
          | none => rw [hn] at h; simp at h
          | some tid =>
              rw [hn] at h
              cases hr : mediasFrom restId (k + 1) rest with
              | none => rw [hr] at h; simp at h
              | some l2 =>
                  rw [hr] at h
                  simp at h
                  subst h
                  cases p with
                  | zero => simp [List.get]
                  | succ q =>
                      have hq : q < l2.length := by
                        simp at hp
                        omega
                      have := ih restId (k + 1) l2 hr q hq
                      simp only [List.get_cons_succ]
                      rw [this]
                      omega

/-- Bitrate-0, bitrate-800 and bitrate-320 variants (the spec's media
selection example). -/
def exVariants : List TweetVideoInfoVariant :=
  [⟨0, "u0"⟩, ⟨800, "u800"⟩, ⟨320, "u320"⟩]

/-- A video media item carrying the three example variants. -/
def exVideoMedia : TweetMedia :=
  ⟨"m1", "thumb", "video", ⟨100, 200⟩, some ⟨exVariants⟩⟩

/-- An item whose extended entities carry the example video. -/
def exVideoItem : TweetItem :=
  ⟨"Tweet", "7", ⟨⟨⟨⟨"bob"⟩⟩⟩⟩,
    ⟨"d", "t", none, none, ⟨none⟩, some ⟨some [exVideoMedia]⟩⟩⟩

/-- C6: every returned media's ordinal is its 1-based source position; for
video/animated_gif items the selected URL belongs to a variant of maximal
bitrate; a single-variant list deterministically wins; and on the
bitrate-[0, 800, 320] example the bitrate-800 URL is chosen. -/
theorem c6_media_selection :
    (∀ (it : TweetItem) (l : List Media) (p : Nat) (h : p < l.length),
        TweetItem.get_medias it = some l → (l.get ⟨p, h⟩).no = p + 1) ∧
    (∀ (m : TweetMedia) (vi : TweetVideoInfo) (u : String),
        (m._type = "animated_gif" ∨ m._type = "video") →
        m.video_info = some vi →
        mediaUrl m = some u →
        ∃ v ∈ vi.variants, u = v.url ∧
          ∀ w ∈ vi.variants, w.bitrate ≤ v.bitrate) ∧
    (∀ (m : TweetMedia) (v : TweetVideoInfoVariant),
        (m._type = "animated_gif" ∨ m._type = "video") →
        m.video_info = some ⟨[v]⟩ →
        mediaUrl m = some v.url) ∧
    mediaUrl exVideoMedia = some "u800" := by
  have hcond : ∀ (m : TweetMedia),
      (m._type = "animated_gif" ∨ m._type = "video") →
      (m._type = "animated_gif" || m._type = "video") = true := by
    intro m hm
    rcases hm with hm | hm <;> simp [hm]
  refine ⟨?_, ?_, ?_, ?_⟩
  · intro it l p h hgm
    unfold TweetItem.get_medias at hgm
    cases hcm : (chosenEntities it).media with
    | none =>
        rw [hcm] at hgm
        simp at hgm
        subst hgm
        simp at h
    | some ms =>
        rw [hcm] at hgm
        have := mediasFrom_no ms it.rest_id 0 l hgm p h
        simpa using this
  · intro m vi u hty hvi hmu
    unfold mediaUrl at hmu
    rw [if_pos (by simpa using hcond m hty)] at hmu
    rw [hvi] at hmu
    simp only [] at hmu
    rcases Option.map_eq_some'.mp hmu with ⟨sel, hsel, hurl⟩
    have hspec := pickMaxBitrate_foldl_spec vi.variants none sel hsel
    rcases hspec.1 with h1 | h1
    · simp at h1
    · exact ⟨sel, h1, hurl.symm, hspec.2.2⟩
  · intro m v hty hvi
    unfold mediaUrl
    rw [if_pos (by simpa using hcond m hty)]
    rw [hvi]
    rfl
  · rfl

/-- C6 witness: the example video item yields one media row with ordinal
1 and the bitrate-800 URL. -/
theorem c6_media_selection_witness :
    (([(⟨"m1", 7, "u800", 200, 100, 1, "video"⟩ : Media)]).get
      ⟨0, by decide⟩).no = 0 + 1 ∧
    mediaUrl exVideoMedia = some "u800" :=
  ⟨c6_media_selection.1 exVideoItem
      [⟨"m1", 7, "u800", 200, 100, 1, "video"⟩] 0 (by decide) (by rfl),
    c6_media_selection.2.2.2⟩

/-! ## C7 — the requested id must be in the final map -/

/-- C7: `extract_all_tweets id obj` returns `Ok(map)` only when `map`
contains the key `id`; and whenever the entry loop runs to completion
without any other error but the resulting map lacks the requested id,
the whole parse fails with exactly the schema-invalid error
(src/tweet_parser.rs lines 419-423). -/
theorem c7_requested_id_present :
    (∀ (id : Nat) (obj : Json) (m : TweetMap),
        extract_all_tweets id obj = .ok m → mapContains m id = true) ∧
    (∀ (id : Nat) (obj : Json) (entries : List Json) (tweets : TweetMap),
        getEntries obj = .ok entries →
        processEntries id [] entries = .cont tweets →
        mapContains tweets id = false →
        extract_all_tweets id obj = .err .TweetJsonSchemaInvalid) := by
  constructor
  · intro id obj m h
    unfold extract_all_tweets at h
    cases hge : getEntries obj with
    | err e => simp only [hge] at h; simp at h
    | panicked => simp only [hge] at h; simp at h
    | ok entries =>
        simp only [hge] at h
        cases hpe : processEntries id [] entries with
        | halt e => simp only [hpe] at h; simp at h
        | panicked => simp only [hpe] at h; simp at h
        | cont tweets =>
            simp only [hpe] at h
            by_cases hc : mapContains tweets id = true
            · rw [if_pos hc] at h
              injection h with h2
              rw [← h2]
              exact hc
            · rw [if_neg hc] at h
              simp at h
  · intro id obj entries tweets hge hpe hc
    unfold extract_all_tweets
    simp only [hge, hpe]
    rw [if_neg (by simp [hc])]

/-- A minimal well-formed single-tweet result payload for id 1. -/
def tweetJson1 : Json :=
  .obj [
    ("__typename", .str "Tweet"),
    ("rest_id", .str "1"),
    ("core", .obj [("user_results", .obj [("result",
      .obj [("legacy", .obj [("screen_name", .str "alice")])])])]),
    ("legacy", .obj [
      ("created_at", .str "d"),
      ("full_text", .str "hello"),
      ("entities", .obj [])
    ])
  ]

/-- A `TimelineTimelineItem` entry wrapping `tweetJson1`. -/
def entryJson1 : Json :=
  .obj [
    ("entryId", .str "tweet-1"),
    ("content", .obj [
      ("entryType", .str "TimelineTimelineItem"),
      ("itemContent", .obj [("tweet_results", .obj [("result",
        tweetJson1)])])
    ])
  ]

/-- A full payload whose only entry is `entryJson1`. -/
def payloadOk : Json :=
  .obj [("data", .obj [("threaded_conversation_with_injections_v2", .obj [
    ("instructions", .arr [
      .obj [("type", .str "TimelineAddEntries"),
            ("entries", .arr [entryJson1])]
    ])])])]

/-- The map `extract_all_tweets 1 payloadOk` computes. -/
def payloadOkMap : TweetMap :=
  [(1, ⟨"Tweet", "1", ⟨⟨⟨⟨"alice"⟩⟩⟩⟩,
    ⟨"d", "hello", none, none, ⟨none⟩, none⟩⟩)]

/-- C7 witness: the concrete single-tweet payload parses to a map
containing the requested id 1; fetched for id 2, its entries still
process cleanly but the map lacks 2, so the parse fails with exactly the
schema-invalid error. -/
theorem c7_requested_id_present_witness :
    mapContains payloadOkMap 1 = true ∧
    extract_all_tweets 2 payloadOk = .err .TweetJsonSchemaInvalid :=
  ⟨c7_requested_id_present.1 1 payloadOk payloadOkMap (by rfl),
    c7_requested_id_present.2 2 payloadOk [entryJson1] payloadOkMap
      (by rfl) (by rfl) (by rfl)⟩

/-! ## C5 — the suspended-account tombstone -/

/-- A `TimelineTimelineItem` entry whose result is a `TextTombstone` with
entry id `eid` and localized text `text` (the payload shape the parser's
tombstone branch handles, src/tweet_parser.rs lines 318-354). -/
def mkTombstoneEntry (eid : String) (text : String) : Json :=
  .obj [
    ("entryId", .str eid),
    ("content", .obj [
      ("entryType", .str "TimelineTimelineItem"),
      ("itemContent", .obj [("tweet_results", .obj [("result",
        .obj [
          ("__typename", .str "TweetTombstone"),
          ("tombstone", .obj [
            ("__typename", .str "TextTombstone"),
            ("text", .obj [("text", .str text)])])])])])
    ])
  ]

theorem processEntry_tombstone_matching (id : Nat) (m : TweetMap)
    (eid text : String)
    (heid : eqIgnoreAsciiCase eid ("tweet-" ++ toString id) = true)
    (htext : strContains text TEXT_TOMBSTONE_ACCOUNT_SUSPENDED = true) :
    processEntry id m (mkTombstoneEntry eid text) =
      .halt .TwitterAccountSuspended := by
  simp [processEntry, mkTombstoneEntry, processSingleItem, Json.getObj?,
    objGet, Json.get?, Json.idx, Json.eqStr, Json.getStr?, heid,
    classifyTombstoneText, htext]

theorem processEntry_tombstone_nonmatching (id : Nat) (m : TweetMap)
    (eid text : String)
    (heid : eqIgnoreAsciiCase eid ("tweet-" ++ toString id) = false) :
    processEntry id m (mkTombstoneEntry eid text) = .cont m := by
  simp [processEntry, mkTombstoneEntry, processSingleItem, Json.getObj?,
    objGet, Json.get?, Json.idx, Json.eqStr, Json.getStr?, heid]

theorem processEntries_cons (id : Nat) (m : TweetMap) (e : Json)
    (rest : List Json) :
    processEntries id m (e :: rest) =
      match processEntry id m e with
      | .cont t => processEntries id t rest
      | r => r := rfl

theorem processEntries_append (id : Nat) :
    ∀ (xs ys : List Json) (m : TweetMap),
      processEntries id m (xs ++ ys) =
        match processEntries id m xs with
        | .cont m2 => processEntries id m2 ys
        | r => r := by
  intro xs
  induction xs with
  | nil =>
      intro ys m
      rfl
  | cons e rest ih =>
      intro ys m
      rw [List.cons_append]
      simp only [processEntries_cons]
      cases hpe : processEntry id m e with
      | cont t =>
          simp only [hpe]
          exact ih ys t
      | halt err => simp only [hpe]
      | panicked => simp only [hpe]

/-- C5: if a payload's entry list contains a text tombstone whose entry id
matches the requested id (case-insensitively, as the code compares) and
whose text contains the account-suspended phrase, the parse can never
return a map; when the entries before the tombstone process normally the
parse fails exactly with `TwitterAccountSuspended`; and a text tombstone
whose entry id does not match the requested id is not fatal — processing
continues with the map unchanged. -/
theorem c5_suspended_tombstone :
    ∀ (id : Nat) (obj : Json) (pre post : List Json) (eid text : String),
      getEntries obj = .ok (pre ++ mkTombstoneEntry eid text :: post) →
      eqIgnoreAsciiCase eid ("tweet-" ++ toString id) = true →
      strContains text TEXT_TOMBSTONE_ACCOUNT_SUSPENDED = true →
      (∀ m : TweetMap, ¬ extract_all_tweets id obj = .ok m) ∧
      ((∀ m0 : TweetMap, ∃ m1, processEntries id m0 pre = .cont m1) →
        extract_all_tweets id obj = .err .TwitterAccountSuspended) ∧
      (∀ (eid2 : String) (m : TweetMap),
        eqIgnoreAsciiCase eid2 ("tweet-" ++ toString id) = false →
        processEntry id m (mkTombstoneEntry eid2 text) = .cont m) := by
  intro id obj pre post eid text hge heid htext
  have hstep : ∀ m1 : TweetMap,
      processEntries id m1 (mkTombstoneEntry eid text :: post) =
        .halt .TwitterAccountSuspended := by
    intro m1
    unfold processEntries
    rw [processEntry_tombstone_matching id m1 eid text heid htext]
  refine ⟨?_, ?_, ?_⟩
  · intro m hcontra
    unfold extract_all_tweets at hcontra
    simp only [hge] at hcontra
    rw [processEntries_append] at hcontra
    cases hpre : processEntries id [] pre with
    | cont m1 =>
        simp only [hpre] at hcontra
        rw [hstep m1] at hcontra
        simp at hcontra
    | halt e =>
        simp only [hpre] at hcontra
        simp at hcontra
    | panicked =>
        simp only [hpre] at hcontra
        simp at hcontra
  · intro hpre
    obtain ⟨m1, hm1⟩ := hpre []
    unfold extract_all_tweets
    simp only [hge]
    rw [processEntries_append]
    simp only [hm1]
    rw [hstep m1]
  · intro eid2 m heid2
    exact processEntry_tombstone_nonmatching id m eid2 text heid2

/-- A payload whose only entry is the matching suspended tombstone. -/
def payloadSusp : Json :=
  .obj [("data", .obj [("threaded_conversation_with_injections_v2", .obj [
    ("instructions", .arr [
      .obj [("type", .str "TimelineAddEntries"),
            ("entries", .arr [mkTombstoneEntry "tweet-1"
              TEXT_TOMBSTONE_ACCOUNT_SUSPENDED])]
    ])])])]

/-- C5 witness: the concrete suspended-tombstone payload for id 1 fails
with the account-suspended classification. -/
theorem c5_suspended_tombstone_witness :
    extract_all_tweets 1 payloadSusp = .err .TwitterAccountSuspended :=
  (c5_suspended_tombstone 1 payloadSusp [] []
      "tweet-1" TEXT_TOMBSTONE_ACCOUNT_SUSPENDED (by rfl) (by decide)
      (by decide)).2.1 (fun m0 => ⟨m0, rfl⟩)

/-! ## C2 — Restricted is terminal only after the authenticated tier -/

/-- C2: while the authenticated retry is still pending (the anonymous
pass calls the processor with `retry_restricted = true`), a `Restricted`
outcome only pushes the URL back into the remaining set — no fail row is
written and no counter moves; and whenever a processor call adds a
`Restricted` row to the fail table, its flag was `false`, which is the
authenticated-tier call site's flag (`authRetryRestricted`). -/
theorem c2_restricted_recorded_only_after_auth :
    (∀ (parseDate : String → Option Nat) (url : String) (id : Nat)
        (e : Error) (st : ProcState),
        e.try_make_fail_reason = some .Restricted →
        processor parseDate url id (.error e) anonRetryRestricted st =
          .ok { st with remaining := st.remaining ++ [url] }) ∧
    (∀ (parseDate : String → Option Nat) (url : String) (id : Nat)
        (tr : Except Error TweetMap) (flag : Bool) (st st' : ProcState),
        processor parseDate url id tr flag st = .ok st' →
        (url, TweetFailReason.Restricted) ∈ st'.failRows →
        (url, TweetFailReason.Restricted) ∈ st.failRows ∨
          flag = authRetryRestricted) := by
  constructor
  · intro parseDate url id e st h
    simp [processor, h, anonRetryRestricted]
  · intro parseDate url id tr flag st st' h hmem
    cases tr with
    | ok tweet =>
        unfold processor at h
        cases hpo : processOk parseDate id tweet with
        | none => simp only [hpo] at h; simp at h
        | some triple =>
            rcases triple with ⟨ts, ms, ths⟩
            simp only [hpo] at h
            by_cases hme : ms.isEmpty = true
            · simp only [hme, if_true] at h
              injection h with h2
              rw [← h2] at hmem
              simp at hmem
              exact Or.inl hmem
            · simp only [hme] at h
              simp at h
              rw [← h] at hmem
              simp at hmem
              exact Or.inl hmem
    | error e =>
        unfold processor at h
        cases hf : e.try_make_fail_reason with
        | none =>
            simp only [hf] at h
            injection h with h2
            rw [← h2] at hmem
            simp at hmem
            exact Or.inl hmem
        | some fail =>
            simp only [hf] at h
            cases fail with
            | Restricted =>
                cases hflag : flag with
                | true =>
                    simp only [hflag] at h
                    simp at h
                    rw [← h] at hmem
                    simp at hmem
                    exact Or.inl hmem
                | false => exact Or.inr rfl
            | Deleted =>
                simp at h
                rw [← h] at hmem
                simp at hmem
                exact Or.inl hmem
            | AccountSuspended =>
                simp at h
                rw [← h] at hmem
                simp at hmem
                exact Or.inl hmem
            | AccountNotExisted =>
                simp at h
                rw [← h] at hmem
                simp at hmem
                exact Or.inl hmem

/-- The all-empty processor state. -/
def st0 : ProcState := ⟨0, 0, 0, 0, 0, [], [], [], [], [], []⟩

/-- C2 witness: in the anonymous pass a restricted tweet is pushed back
into the remaining set, with the fail table untouched. -/
theorem c2_restricted_recorded_only_after_auth_witness :
    processor (fun _ => none) "u" 1 (.error .TweetRestricted)
        anonRetryRestricted st0 =
      .ok { st0 with remaining := st0.remaining ++ ["u"] } :=
  c2_restricted_recorded_only_after_auth.1 (fun _ => none) "u" 1
    .TweetRestricted st0 (by rfl)

end ShiroTweet
